import Mathlib

/-!
# Verification of the market-news filtering/scoring pipeline

Shallow embedding of the news relevance scoring and filtering pipeline of
`alpha_news_chill.py` (class `ProfessionalNewsGenerator`), together with
theorems settling the specification claims about it.

Conventions of the embedding:
* Python strings are Lean `String`s; `needle in hay` is `strContains`,
  `s.lower()` is `pyLower`, `s.isupper()` is `pyIsUpper`,
  `len(s)` is `String.length`, `s[:n]` is `pyTake`.
* Python floats are modelled as `Rat` (exact thresholds; no claim here
  depends on binary rounding).
* Fallible operations return `Option`; a `try/except` that degrades to an
  empty list is modelled by matching on the `Option`.
* Network fetches are abstracted as function parameters supplying the
  article lists they would return.
-/

namespace MarketNews

/-- Python `needle in hay` on lists of characters: `needle` occurs as a
contiguous substring of `hay` (the empty needle always matches). -/
def listContainsSub (needle : List Char) : List Char → Bool
  | [] => needle.isEmpty
  | c :: t => needle.isPrefixOf (c :: t) || listContainsSub needle t

/-- Python `needle in hay` for strings (case-sensitive substring test). -/
def strContains (hay needle : String) : Bool :=
  listContainsSub needle.toList hay.toList

/-- Python `s.lower()` (ASCII case folding, character by character). -/
def pyLower (s : String) : String :=
  ⟨s.data.map Char.toLower⟩

/-- Python `s[:n]`: the first `n` characters of `s`. -/
def pyTake (s : String) (n : Nat) : String :=
  ⟨s.data.take n⟩

/-- Python `s.isupper()`: at least one cased character and every cased
character upper-case (cased approximated by `Char.isAlpha`, which is exact
for the ASCII text this pipeline handles). -/
def pyIsUpper (s : String) : Bool :=
  s.toList.any Char.isAlpha && s.toList.all fun c => !c.isAlpha || c.isUpper

/-- The deduplication key of `_remove_duplicate_headlines` (line 563):
`title.lower()[:60]`, the case-folded first 60 characters of the title. -/
def titleKey (title : String) : String :=
  pyTake (pyLower title) 60

/-- A raw sentiment-score JSON value: either a number (coercible by
Python's `float(...)`) or a non-numeric string (on which `float` raises). -/
inductive RawScore where
  | num (q : Rat)
  | nonNumeric (s : String)
deriving DecidableEq, Repr

/-- The `float(x)`: succeeds exactly on numeric values. -/
def coerceFloat : RawScore → Option Rat
  | .num q => some q
  | .nonNumeric _ => none

/-- One entry of the raw `ticker_sentiment` array; `ticker` is `none` when
the `'ticker'` key is absent. -/
structure TickerEntry where
  ticker : Option String
deriving DecidableEq, Repr

/-- A raw feed record, with the fields the pipeline reads (absent optional
fields are already resolved to the `.get(..., default)` defaults for
`title`/`summary`/`source`/`time_published`/`label`/`url`; the sentiment
score keeps its raw shape because its coercion can fail). -/
structure RawArticle where
  title : String
  summary : String
  source : String
  time_published : String
  overall_sentiment_label : String
  overall_sentiment_score : RawScore
  ticker_sentiment : List TickerEntry
  url : String
deriving DecidableEq, Repr

/-- The normalized article shape produced by `_normalize_article`
(lines 1154-1167). -/
structure NormalizedArticle where
  title : String
  summary : String
  source : String
  time_published : String
  sentiment : String
  sentiment_score : Rat
  tickers : List String
  url : String
  quality_score : Nat
deriving DecidableEq, Repr

/-- Ticker projection of `_normalize_article` (line 1155): keep
`item.get('ticker')` for each entry whose ticker is truthy (present and
non-empty). -/
def extractTickers (ts : List TickerEntry) : List String :=
  ts.filterMap fun e =>
    match e.ticker with
    | some s => if s = "" then none else some s
    | none => none

/-- The `_normalize_article` (lines 1154-1167).  `float(...)` on the sentiment
score can raise, so the result is an `Option`: `none` models the
`ValueError` escaping the function. -/
def normalize_article (a : RawArticle) : Option NormalizedArticle :=
  (coerceFloat a.overall_sentiment_score).map fun q =>
    { title := a.title
      summary := a.summary
      source := a.source
      time_published := a.time_published
      sentiment := a.overall_sentiment_label
      sentiment_score := q
      tickers := extractTickers a.ticker_sentiment
      url := a.url
      quality_score := 75 }

/-! ## Fixed vocabularies (inline literals of the source) -/

/-- The `strict_exclusions` of `_is_quality_major_headline` (lines 378-395). -/
def strict_exclusions_headline : List String :=
  ["shareholder alert", "class action", "lawsuit", "attorney", "investigation",
   "legal notice", "court", "settlement", "plaintiff", "damages", "reminds investors",
   "law firm", "securities fraud", "kahn swick", "losses in excess",
   "announces grant", "stock options", "reverse stock split", "stock split",
   "dividend announcement", "board of directors", "executive appointment",
   "quarterly dividend", "special dividend",
   "if you invested", "you would have", "outperformed", "5 years ago",
   "strong buy", "trending stocks", "stocks for your", "zacks rank",
   "3 stocks", "5 stocks", "top stocks", "stocks to buy", "stocks to watch"]

/-- The `quality_indicators` of `_is_quality_major_headline` (lines 401-419). -/
def quality_indicators_headline : List String :=
  ["fed", "federal reserve", "interest rate", "inflation", "gdp", "cpi",
   "jobs report", "unemployment", "economic data", "retail sales",
   "market rally", "market surge", "market falls", "record high", "all-time high",
   "correction", "volatility", "dow", "nasdaq", "s&p 500", "index",
   "earnings beat", "earnings miss", "quarterly results", "revenue",
   "energy sector", "tech sector", "financial sector", "banking",
   "oil prices", "crude oil", "natural gas", "energy",
   "dollar", "treasury", "bonds", "yield curve"]

/-- The `major_companies` of `_is_quality_major_headline` (lines 424-427). -/
def major_companies_headline : List String :=
  ["apple", "microsoft", "google", "amazon", "tesla", "nvidia",
   "meta", "netflix", "adobe", "oracle", "salesforce"]

/-- Reputable-source fragments of `_is_quality_major_headline` (line 430). -/
def reputable_sources : List String :=
  ["cnbc", "reuters", "bloomberg", "wsj", "marketwatch"]

/-- The `strict_exclusions` of `_is_quality_financial_content` (lines 1094-1110). -/
def strict_exclusions_content : List String :=
  ["shareholder alert", "class action", "lawsuit", "attorney", "investigation",
   "legal notice", "court", "settlement", "plaintiff", "damages", "reminds investors",
   "law firm", "securities fraud", "kahn swick", "losses in excess",
   "announces grant", "stock options", "reverse stock split", "stock split",
   "dividend announcement", "board of directors", "executive appointment",
   "if you invested", "you would have", "outperformed", "5 years ago",
   "strong buy", "trending stocks", "stocks for your", "zacks rank",
   "3 stocks", "5 stocks", "top stocks", "stocks to buy", "stocks to watch"]

/-- The `self.MAJOR_COMPANIES` (lines 39-43). -/
def MAJOR_COMPANIES : List String :=
  ["apple", "microsoft", "google", "amazon", "tesla", "nvidia", "meta",
   "netflix", "intel", "amd", "disney", "nike", "cocacola", "pepsi",
   "jpmorgan", "goldman sachs", "boeing", "ford", "exxon", "chevron"]

/-- The `self.HIGH_IMPACT_KEYWORDS` (lines 45-50). -/
def HIGH_IMPACT_KEYWORDS : List String :=
  ["fed", "federal reserve", "interest rate", "inflation", "gdp", "cpi",
   "jobs report", "unemployment", "trade war", "tariffs", "opec", "gold",
   "market rally", "market surge", "market falls", "record high",
   "dow", "nasdaq", "s&p 500", "oil prices", "crude oil"]

/-- The `quality_indicators` of `_is_quality_financial_content` (lines 1127-1142). -/
def quality_indicators_content : List String :=
  ["earnings", "revenue", "profit", "guidance", "outlook", "beats", "misses",
   "market", "trading", "price", "rally", "surge", "falls", "drops",
   "fed", "federal reserve", "interest rate", "inflation", "gdp", "employment",
   "economic data", "consumer confidence", "retail sales", "manufacturing",
   "energy", "technology", "healthcare", "financials", "oil prices", "gold",
   "cryptocurrency", "bitcoin", "ethereum", "bonds", "treasury", "currency",
   "ipo", "merger", "acquisition", "partnership", "deal", "contract"]

/-- The `company_exclusions` of `_is_quality_gold_commodity_news` (lines 268-278);
only the active (uncommented) entries. -/
def company_exclusions_gold : List String :=
  ["announces dividend", "stock split", "reverse split", "ipo",
   "if you invested", "you would have", "outperformed"]

/-- The `gold_commodity_terms` of `_is_quality_gold_commodity_news` (lines 284-290). -/
def gold_commodity_terms : List String :=
  ["gold price", "gold prices", "gold rally", "gold surge", "gold falls",
   "gold futures", "spot gold", "gold market", "gold trading",
   "gold demand", "gold supply", "bullion", "precious metals",
   "gold etf rally", "gold market outlook", "gold commodity",
   "central bank gold", "inflation gold", "safe haven gold"]

/-- The `crypto_terms` of `_is_quality_crypto_market_news` (line 304). -/
def crypto_terms : List String :=
  ["bitcoin", "btc", "ethereum", "eth", "crypto", "cryptocurrency", "dogecoin", "doge"]

/-- The `corporate_exclusions` of `_is_quality_crypto_market_news` (lines 311-315). -/
def corporate_exclusions_crypto : List String :=
  ["stock split", "reverse split", "announces", "reports earnings",
   "ipo", "share price", "stock option", "dividend", "sec filing",
   "holding inc", "technology holding", "corporation announces"]

/-- The `market_indicators` of `_is_quality_crypto_market_news` (lines 321-325). -/
def market_indicators_crypto : List String :=
  ["price", "rises", "falls", "rally", "surge", "drops", "trading",
   "market", "whale", "etf", "adoption", "regulation", "sec approval",
   "institutional", "treasury", "reserves", "demand", "supply"]

/-- Spam terms of `_is_quality_headline` (line 553). -/
def spam_terms_basic : List String := ["alert", "reminder", "deadline"]

/-! ## Content-filter predicates -/

/-- The `_is_quality_major_headline` (lines 371-437), as a function of the three
fields it reads.  Exclusions are matched against the lowered **title only**
(line 397); quality indicators against title or summary; the all-caps check
runs on the already-lowered title. -/
def is_quality_major_headline_str (title summary source : String) : Bool :=
  let t := pyLower title
  let s := pyLower summary
  let src := pyLower source
  if strict_exclusions_headline.any (fun term => strContains t term) then
    false
  else
    let has_quality_content :=
      quality_indicators_headline.any fun term => strContains t term || strContains s term
    let is_major_company_news :=
      major_companies_headline.any fun company => strContains t company
    let is_reputable_source :=
      reputable_sources.any fun sr => strContains src sr
    let title_length_ok := 30 ≤ t.length && t.length ≤ 120
    let not_all_caps := !pyIsUpper t
    (has_quality_content || (is_major_company_news && is_reputable_source))
      && title_length_ok && not_all_caps

/-- The `_is_quality_major_headline` on a raw feed record (how
`_get_regular_headlines` calls it, line 357). -/
def RawArticle.is_quality_major_headline (a : RawArticle) : Bool :=
  is_quality_major_headline_str a.title a.summary a.source

/-- The `_is_quality_major_headline` on a normalized article (normalization
preserves `title`/`summary`/`source` verbatim). -/
def NormalizedArticle.is_quality_major_headline (a : NormalizedArticle) : Bool :=
  is_quality_major_headline_str a.title a.summary a.source

/-- The `_is_quality_financial_content` (lines 1087-1152).  Exclusions match the
lowered **title only** (line 1112); the significance gate (lines 1115-1124)
requires a major company in the title or a high-impact keyword in title or
summary; tickers are counted on the raw `ticker_sentiment` list
(line 1146). -/
def is_quality_financial_content (a : RawArticle) : Bool :=
  let t := pyLower a.title
  let s := pyLower a.summary
  if strict_exclusions_content.any (fun term => strContains t term) then
    false
  else
    let is_significant :=
      MAJOR_COMPANIES.any (fun company => strContains t company)
        || HIGH_IMPACT_KEYWORDS.any (fun kw => strContains t kw || strContains s kw)
    if !is_significant then
      false
    else
      let has_financial_content :=
        quality_indicators_content.any fun term => strContains t term || strContains s term
      let has_tickers := 0 < a.ticker_sentiment.length
      let title_length_ok := 25 ≤ t.length && t.length ≤ 150
      let not_all_caps := !pyIsUpper t
      (has_financial_content || has_tickers) && title_length_ok && not_all_caps

/-- The `_is_quality_gold_commodity_news` (lines 262-296), as a function of title
and summary (the only fields it reads).  `has_gold` is a plain substring
test, so `"goldman"` satisfies it. -/
def is_quality_gold_commodity_news_str (title summary : String) : Bool :=
  let t := pyLower title
  let s := pyLower summary
  if company_exclusions_gold.any (fun term => strContains t term || strContains s term) then
    false
  else
    let has_gold := strContains t ("gold") || strContains s ("gold")
    let has_market_context :=
      gold_commodity_terms.any fun term => strContains t term || strContains s term
    has_gold && has_market_context

/-- The `_is_quality_gold_commodity_news` on a normalized article. -/
def NormalizedArticle.is_quality_gold_commodity_news (a : NormalizedArticle) : Bool :=
  is_quality_gold_commodity_news_str a.title a.summary

/-- The `_is_quality_crypto_market_news` (lines 298-328): crypto term in the
title, no corporate exclusion in the title, and a market indicator in title
or summary. -/
def is_quality_crypto_market_news_str (title summary : String) : Bool :=
  let t := pyLower title
  let s := pyLower summary
  let has_crypto := crypto_terms.any fun term => strContains t term
  if !has_crypto then
    false
  else if corporate_exclusions_crypto.any (fun term => strContains t term) then
    false
  else
    market_indicators_crypto.any fun term => strContains t term || strContains s term

/-- The `_is_quality_crypto_market_news` on a normalized article. -/
def NormalizedArticle.is_quality_crypto_market_news (a : NormalizedArticle) : Bool :=
  is_quality_crypto_market_news_str a.title a.summary

/-- The `_is_quality_headline` (lines 546-555): title length within 25..150, not
all-caps (on the original-case title), and no basic spam term in the lowered
title. -/
def is_quality_headline (a : NormalizedArticle) : Bool :=
  let title := a.title
  let title_length_ok := 25 ≤ title.length && title.length ≤ 150
  let not_all_caps := !pyIsUpper title
  let not_spam := !spam_terms_basic.any fun sp => strContains (pyLower title) sp
  title_length_ok && not_all_caps && not_spam

/-! ## Vocabularies of the priority scorer -/

/-- The `forex_critical` of `_get_priority_score` (lines 451-456). -/
def forex_critical : List String :=
  ["federal reserve", "fed meeting", "fomc", "interest rate", "monetary policy",
   "ecb", "boe", "boj", "snb", "rba", "boc",
   "cpi", "inflation data", "non-farm payrolls", "nfp",
   "jobs report", "gdp", "unemployment", "hawkish", "dovish"]

/-- The `geopolitical_events` of `_get_priority_score` (lines 462-465). -/
def geopolitical_events : List String :=
  ["geopolitical", "trade war", "tariffs", "sanctions", "election",
   "summit", "opec", "brexit"]

/-- The `forex_market_events` of `_get_priority_score` (lines 471-474). -/
def forex_market_events : List String :=
  ["dollar", "euro", "yen", "pound", "currency", "risk-on", "risk-off",
   "safe-haven", "bond yields", "yield curve", "treasury"]

/-- The `market_events` of `_get_priority_score` (lines 480-483). -/
def market_events : List String :=
  ["record high", "all-time high", "market rally", "market surge",
   "dow hits", "nasdaq reaches", "s&p 500", "correction", "sell-off"]

/-- The `sector_news` of `_get_priority_score` (lines 489-492). -/
def sector_news : List String :=
  ["oil prices", "crude oil", "energy sector", "tech sector",
   "banking sector", "financials"]

/-- Earnings companies of `_get_priority_score` (lines 498-500). -/
def earnings_companies : List String :=
  ["apple", "microsoft", "google", "amazon", "tesla", "nvidia"]

/-- The `_get_priority_score` (lines 439-517).  All bonuses are non-negative
integers, so the score is a `Nat`.  The function never reads `source`. -/
def get_priority_score (a : NormalizedArticle) : Nat :=
  let t := pyLower a.title
  let s0 : Nat := 0
  let s1 := s0 +
    (if a.is_quality_gold_commodity_news then 150
     else if a.is_quality_crypto_market_news then 140 else 0)
  let s2 := s1 + (if forex_critical.any (fun term => strContains t term) then 160 else 0)
  let s3 := s2 + (if geopolitical_events.any (fun term => strContains t term) then 140 else 0)
  let s4 := s3 + (if forex_market_events.any (fun term => strContains t term) then 120 else 0)
  let s5 := s4 + (if market_events.any (fun term => strContains t term) then 80 else 0)
  let s6 := s5 + (if sector_news.any (fun term => strContains t term) then 60 else 0)
  let s7 := s6 +
    (if strContains t ("earnings") && earnings_companies.any (fun c => strContains t c)
     then 40 else 0)
  let sentiment := |a.sentiment_score|
  let s8 := s7 +
    (if mkRat 7 10 < sentiment then 20 else if mkRat 4 10 < sentiment then 10 else 0)
  let tickerCount := a.tickers.length
  s8 + (if 3 ≤ tickerCount then 15 else if 1 ≤ tickerCount then 5 else 0)

/-! ## Stable descending sort

Python's `list.sort(key=..., reverse=True)` is a stable sort: elements are
ordered by descending key and equal-key elements keep their original
relative order.  That behaviour is uniquely determined, and is realized
here by an insertion sort that moves each element past strictly-greater
keys only. -/

/-- Insert `x` into `l` after every element of strictly greater score
(so, before any equal-scored element already in `l`, which in `sort_by_score`
always comes from later in the input). -/
def insert_by_score (x : NormalizedArticle) : List NormalizedArticle → List NormalizedArticle
  | [] => [x]
  | y :: ys =>
    if get_priority_score x < get_priority_score y then y :: insert_by_score x ys
    else x :: y :: ys

/-- The `headlines.sort(key=lambda x: self._get_priority_score(x), reverse=True)`
(lines 217 and 362): stable descending sort by priority score. -/
def sort_by_score : List NormalizedArticle → List NormalizedArticle
  | [] => []
  | x :: xs => insert_by_score x (sort_by_score xs)

/-- The `_remove_duplicate_headlines` (lines 557-568): keep the first headline
for each 60-character case-folded title key. -/
def remove_duplicate_headlines_go (seen : List String) :
    List NormalizedArticle → List NormalizedArticle
  | [] => []
  | h :: hs =>
    if titleKey h.title ∈ seen then remove_duplicate_headlines_go seen hs
    else h :: remove_duplicate_headlines_go (titleKey h.title :: seen) hs

/-- The `_remove_duplicate_headlines` (lines 557-568). -/
def remove_duplicate_headlines (headlines : List NormalizedArticle) :
    List NormalizedArticle :=
  remove_duplicate_headlines_go [] headlines

/-! ## Category-coverage guarantor -/

/-- Modelled from the spec: `_headlines_similar` is called at line 255 but
is absent from the captured source, so the duplicate test follows §4.4 of
the spec: "two articles are considered duplicates if the case-folded first
60 characters of their titles match exactly". -/
def headlines_similar (a b : NormalizedArticle) : Bool :=
  titleKey a.title = titleKey b.title

/-- The `time_ranges` of `_get_guaranteed_gold_bitcoin_headlines`
(lines 226-231): lookback windows in days, nearest first. -/
def time_ranges : List (Nat × Nat) := [(0, 1), (1, 2), (2, 4), (4, 7)]

/-- One window iteration of the loop of
`_get_guaranteed_gold_bitcoin_headlines` (lines 233-258) on the already
fetched window contents `hs`: first the gold slot (if no accepted article
passes the gold predicate), then the crypto slot (if no accepted article
passes the crypto predicate and the cap is not reached). -/
def guarantor_window (limit : Nat) (hs acc : List NormalizedArticle) :
    List NormalizedArticle :=
  let acc1 :=
    if acc.countP (fun h => h.is_quality_gold_commodity_news) = 0 then
      match hs.find? (fun h => h.is_quality_gold_commodity_news && is_quality_headline h) with
      | some h => acc ++ [h]
      | none => acc
    else acc
  if acc1.countP (fun h => h.is_quality_crypto_market_news) = 0 ∧ acc1.length < limit then
    match hs.find? (fun h => h.is_quality_crypto_market_news && is_quality_headline h
        && !acc1.any (fun existing => headlines_similar h existing)) with
    | some h => acc1 ++ [h]
    | none => acc1
  else acc1

/-- The window loop of `_get_guaranteed_gold_bitcoin_headlines`
(lines 233-258).  `fetch` abstracts `_get_headlines_timeframe` (already
normalized articles; a failed fetch is an empty list).  Returns the
accepted articles together with the list of windows actually fetched. -/
def guarantor_go (fetch : Nat × Nat → List NormalizedArticle) (limit : Nat) :
    List (Nat × Nat) → List NormalizedArticle → List NormalizedArticle × List (Nat × Nat)
  | [], acc => (acc, [])
  | w :: ws, acc =>
    if limit ≤ acc.length then (acc, [])
    else
      let acc' := guarantor_window limit (fetch w) acc
      let rest := guarantor_go fetch limit ws acc'
      (rest.1, w :: rest.2)

/-- The `_get_guaranteed_gold_bitcoin_headlines` (lines 222-260), with the
window fetches abstracted; also reports which windows were fetched. -/
def get_guaranteed_gold_bitcoin_headlines
    (fetch : Nat × Nat → List NormalizedArticle) (limit : Nat) :
    List NormalizedArticle × List (Nat × Nat) :=
  let r := guarantor_go fetch limit time_ranges []
  (r.1.take limit, r.2)

/-! ## Fetch-and-filter pipelines -/

/-- Normalization of a whole batch, as the list comprehensions at
lines 357-359, 1037 and 1080 perform it inside a single `try`: the first
`float(...)` failure aborts the whole comprehension (`none`). -/
def normalize_batch : List RawArticle → Option (List NormalizedArticle)
  | [] => some []
  | a :: as =>
    match normalize_article a, normalize_batch as with
    | some n, some ns => some (n :: ns)
    | _, _ => none

/-- The `_get_regular_headlines` (lines 330-369) on an abstracted feed: filter
raw articles by `_is_quality_major_headline`, normalize (a single
`float(...)` failure aborts the whole `try` block to `[]`), sort by
priority, truncate.  `remaining_limit` is an `Int` because the caller
passes `limit - len(guaranteed)`. -/
def get_regular_headlines (feed : List RawArticle) (remaining_limit : Int) :
    List NormalizedArticle :=
  if remaining_limit ≤ 0 then []
  else
    match normalize_batch (feed.filter RawArticle.is_quality_major_headline) with
    | some arts => (sort_by_score arts).take remaining_limit.toNat
    | none => []

/-- The `get_major_headlines` (lines 202-220): guaranteed gold/crypto headlines
first, then regular headlines up to the remaining limit, deduplicate, sort
by priority descending, truncate to `limit`. -/
def get_major_headlines (fetch : Nat × Nat → List NormalizedArticle)
    (regular_feed : List RawArticle) (limit : Nat) : List NormalizedArticle :=
  let guaranteed := (get_guaranteed_gold_bitcoin_headlines fetch 2).1
  let regular := get_regular_headlines regular_feed ((limit : Int) - guaranteed.length)
  let all_headlines := guaranteed ++ regular
  let final_headlines := remove_duplicate_headlines all_headlines
  (sort_by_score final_headlines).take limit

/-- The aggregation stage of `get_major_headlines` (lines 213-220) on two
given headline lists: concatenate, deduplicate, stable-sort descending by
priority score, truncate. -/
def aggregate_headlines (guaranteed general : List NormalizedArticle) (limit : Nat) :
    List NormalizedArticle :=
  (sort_by_score (remove_duplicate_headlines (guaranteed ++ general))).take limit

/-- The `_get_high_quality_news` (lines 1008-1061) on an abstracted feed: keep
articles passing `_is_quality_financial_content`, normalize each, truncate.
The whole list comprehension sits in one `try`: the first coercion failure
makes the call return `[]`. -/
def get_high_quality_news (feed : List RawArticle) (limit : Nat) :
    List NormalizedArticle :=
  match normalize_batch (feed.filter is_quality_financial_content) with
  | some arts => arts.take limit
  | none => []

/-! ## Style guide and content generation entry point -/

/-- One entry of `self.style_guide` (lines 53-96). -/
structure StyleConfig where
  name : String
  description : String
  target_seconds : Nat
  tone : String
  pacing : String
deriving DecidableEq, Repr

/-- The `self.style_guide` (lines 53-96): the six defined styles. -/
def style_guide : List (String × StyleConfig) :=
  [("classic_daily",
    { name := "Classic Daily Brief",
      description := "Professional, conversational, structured daily update",
      target_seconds := 65, tone := "conversational yet authoritative",
      pacing := "moderate" }),
   ("breaking_alert",
    { name := "Breaking News Alert",
      description := "Urgent, dramatic, immediate market developments",
      target_seconds := 55, tone := "urgent and dramatic", pacing := "fast" }),
   ("weekly_deep",
    { name := "Weekly Deep Dive",
      description := "Analytical, comprehensive, forward-looking analysis",
      target_seconds := 85, tone := "analytical and comprehensive",
      pacing := "slower, thoughtful" }),
   ("market_pulse",
    { name := "Market Pulse",
      description := "Energetic, rhythm-focused, punchy updates",
      target_seconds := 60, tone := "energetic and rhythmic", pacing := "upbeat" }),
   ("strategic_outlook",
    { name := "Strategic Outlook",
      description := "Advisory, institutional, strategic positioning",
      target_seconds := 80, tone := "advisory and institutional",
      pacing := "measured, authoritative" }),
   ("forex_briefing",
    { name := "Forex Daily Briefing",
      description :=
        "Hard-data-driven analysis of major currency pairs and macroeconomic news.",
      target_seconds := 50, tone := "analytical and data-driven",
      pacing := "clear and concise" })]

/-- The keys defined in `self.style_guide`. -/
def style_keys : List String :=
  ["classic_daily", "breaking_alert", "weekly_deep", "market_pulse",
   "strategic_outlook", "forex_briefing"]

/-- The `generate_content` (lines 99-110).  Its first statement evaluates
`self.style_guide[style_key]` (line 101), so an unknown key raises
`KeyError` before any day dispatch or news fetch; the day modes fetch news
(`fetch days_back limit`) and hand it to the (external, opaque)
content-generation step `make`. -/
def generate_content (today : String) (fetch : Nat → Nat → List NormalizedArticle)
    (make : StyleConfig → List NormalizedArticle → String)
    (style_key : String) : Except String String :=
  match style_guide.lookup style_key with
  | none => .error style_key
  | some cfg =>
    let news :=
      if today = "Monday" then fetch 0 8
      else if today = "Wednesday" then fetch 2 10
      else if today = "Friday" then fetch 5 12
      else fetch 0 8
    .ok (make cfg news)

/-! ## Supporting lemmas -/

/-- Case folding preserves the character count (`len(s.lower()) = len(s)`). -/
theorem pyLower_length (s : String) : (pyLower s).length = s.length := by
  show (s.data.map Char.toLower).length = s.data.length
  exact List.length_map _ _

/-- Every exclusion phrase of `_is_quality_financial_content` is also an
exclusion phrase of `_is_quality_major_headline`. -/
theorem content_exclusions_subset_headline :
    ∀ t ∈ strict_exclusions_content, t ∈ strict_exclusions_headline := by
  decide

/-! ## Claim C1 -/

/-- Concrete article: exclusion phrase only in the summary, a clean
high-impact title. -/
def articleSummaryExcluded : RawArticle :=
  { title := "Fed raises interest rate amid inflation concerns now"
    summary := "Shareholder alert: a class action lawsuit was filed by a law firm"
    source := "reuters"
    time_published := "20251010T120000"
    overall_sentiment_label := "bullish"
    overall_sentiment_score := .num (mkRat 3 10)
    ticker_sentiment := [{ ticker := some ("JPM") }]
    url := "" }

/-- C1 (counterexample): an article whose summary (but not title) contains
the denylisted phrases "shareholder alert", "class action", "lawsuit" and
"law firm" is nevertheless admitted by both content-filter predicates, so
an exclusion phrase appearing only in the summary is *not* sufficient for
rejection. -/
theorem claim_C1_counterexample :
    strContains (pyLower articleSummaryExcluded.summary) "shareholder alert" = true ∧
    strContains (pyLower articleSummaryExcluded.summary) "class action" = true ∧
    strContains (pyLower articleSummaryExcluded.summary) "lawsuit" = true ∧
    strContains (pyLower articleSummaryExcluded.title) "shareholder alert" = false ∧
    is_quality_financial_content articleSummaryExcluded = true ∧
    articleSummaryExcluded.is_quality_major_headline = true := by
  refine ⟨by decide, by decide, by decide, by decide, by decide, by decide⟩

/-- C1 (amended): the exclusion denylist is matched against the **title
only**; whenever any denylisted phrase occurs in the (case-folded) title,
both content-filter admission predicates return false regardless of every
other signal the article carries. -/
theorem claim_C1 (a : RawArticle) (term : String)
    (hmem : term ∈ strict_exclusions_content)
    (hsub : strContains (pyLower a.title) term = true) :
    is_quality_financial_content a = false ∧
    a.is_quality_major_headline = false := by
  have hany : strict_exclusions_content.any
      (fun t => strContains (pyLower a.title) t) = true :=
    List.any_eq_true.mpr ⟨term, hmem, hsub⟩
  have hany' : strict_exclusions_headline.any
      (fun t => strContains (pyLower a.title) t) = true :=
    List.any_eq_true.mpr
      ⟨term, content_exclusions_subset_headline term hmem, hsub⟩
  constructor
  · simp only [is_quality_financial_content, hany, if_true]
  · simp only [RawArticle.is_quality_major_headline,
      is_quality_major_headline_str, hany', if_true]

/-- Witness for C1 at a concrete article with "lawsuit" in the title. -/
def articleTitleExcluded : RawArticle :=
  { title := "Major lawsuit threatens the largest tech sector companies"
    summary := "Broad market rally continues as the dow hits a record high"
    source := "cnbc"
    time_published := "20251010T120000"
    overall_sentiment_label := "bullish"
    overall_sentiment_score := .num (mkRat 9 10)
    ticker_sentiment := [{ ticker := some ("AAPL") }, { ticker := some ("MSFT") },
                         { ticker := some ("NVDA") }]
    url := "" }

/-- Witness for `claim_C1`: the hypotheses hold at `articleTitleExcluded`,
and the theorem rejects it through both predicates despite its tickers,
quality keywords and reputable source. -/
theorem claim_C1_witness :
    is_quality_financial_content articleTitleExcluded = false ∧
    articleTitleExcluded.is_quality_major_headline = false :=
  claim_C1 articleTitleExcluded ("lawsuit") (by decide) (by decide)

/-! ## Claim C2 -/

/-- Concrete article: has a ticker, clean title of admissible length, but
mentions no major company and no high-impact keyword, and carries no
financial-indicator keyword. -/
def articleTickerOnly : RawArticle :=
  { title := "Acme Widgets releases new product line this autumn"
    summary := "The launch event is planned for next month in Ohio"
    source := "prnewswire"
    time_published := "20251010T120000"
    overall_sentiment_label := "neutral"
    overall_sentiment_score := .num (mkRat 1 10)
    ticker_sentiment := [{ ticker := some ("ACME") }]
    url := "" }

/-- C2 (counterexample): an article with an attached ticker, no
exclusion-term match in title or summary, and an in-range, non-all-caps
title is still rejected by `_is_quality_financial_content`, because the
significance gate (major company or high-impact keyword) fires first:
ticker presence alone is *not* sufficient positive evidence. -/
theorem claim_C2_counterexample :
    0 < articleTickerOnly.ticker_sentiment.length ∧
    strict_exclusions_content.all
      (fun t => !(strContains (pyLower articleTickerOnly.title) t ||
                  strContains (pyLower articleTickerOnly.summary) t)) = true ∧
    (25 ≤ articleTickerOnly.title.length ∧ articleTickerOnly.title.length ≤ 150) ∧
    pyIsUpper articleTickerOnly.title = false ∧
    is_quality_financial_content articleTickerOnly = false := by
  refine ⟨by decide, by decide, ⟨by decide, by decide⟩, by decide, by decide⟩

set_option maxRecDepth 4000 in
/-- C2 (amended): ticker presence is sufficient positive evidence only
behind the significance gate: an article with at least one
`ticker_sentiment` entry, no exclusion term in the title, an in-range
non-all-caps title, **and** a major-company or high-impact-keyword match is
admitted by `_is_quality_financial_content` even when it contains no
financial-indicator keyword. -/
theorem claim_C2 (a : RawArticle)
    (hticker : 0 < a.ticker_sentiment.length)
    (hexcl : strict_exclusions_content.any
      (fun t => strContains (pyLower a.title) t) = false)
    (hsig : (MAJOR_COMPANIES.any (fun c => strContains (pyLower a.title) c)
        || HIGH_IMPACT_KEYWORDS.any (fun k => strContains (pyLower a.title) k
            || strContains (pyLower a.summary) k)) = true)
    (hlen : 25 ≤ a.title.length ∧ a.title.length ≤ 150)
    (hcaps : pyIsUpper (pyLower a.title) = false) :
    is_quality_financial_content a = true := by
  simp only [is_quality_financial_content, hexcl, hsig, pyLower_length,
    Bool.false_eq_true, if_false, Bool.not_true, Bool.false_and,
    Bool.and_eq_true, Bool.or_eq_true]
  simp [hticker, hlen.1, hlen.2, hcaps]

/-- Concrete article for the C2 witness: major-company title (so the
significance gate passes) with a ticker but no financial-indicator
keyword. -/
def articleAppleTicker : RawArticle :=
  { title := "Apple unveils thinner device lineup at september showcase"
    summary := "The new models were shown to the press on stage"
    source := "cnbc"
    time_published := "20251010T120000"
    overall_sentiment_label := "neutral"
    overall_sentiment_score := .num 0
    ticker_sentiment := [{ ticker := some ("AAPL") }]
    url := "" }

/-- Witness for `claim_C2`: all hypotheses hold at `articleAppleTicker`
(it contains no term of `quality_indicators_content`), and the theorem
admits it. -/
theorem claim_C2_witness :
    quality_indicators_content.all
      (fun t => !(strContains (pyLower articleAppleTicker.title) t ||
                  strContains (pyLower articleAppleTicker.summary) t)) = true ∧
    is_quality_financial_content articleAppleTicker = true :=
  ⟨by decide,
   claim_C2 articleAppleTicker (by decide) (by decide) (by decide)
     ⟨by decide, by decide⟩ (by decide)⟩

/-! ## Claim C9 -/

/-- Concrete article: a Goldman Sachs analyst note about precious metals.
The only occurrence of the letters `gold` in title or summary is inside the
name "Goldman Sachs"; the summary mentions "precious metals" but never
`gold`. -/
def articleGoldman : NormalizedArticle :=
  { title := "Goldman Sachs analysts bullish on precious metals this quarter"
    summary := "Strategists at the bank see more upside for precious metals"
    source := "benzinga"
    time_published := "20251010T120000"
    sentiment := "bullish"
    sentiment_score := mkRat 4 10
    tickers := ["GS"]
    url := ""
    quality_score := 75 }

/-- C9 (counterexample): `_is_quality_gold_commodity_news` accepts a pure
"Goldman Sachs" article: `has_gold` is a substring test which "goldman"
satisfies, the Goldman-specific exclusions are commented out in the source,
and "precious metals" supplies the market-context phrase.  The claim says
such an article is rejected; the code admits it. -/
theorem claim_C9_counterexample :
    strContains (pyLower articleGoldman.title) "goldman sachs" = true ∧
    strContains (pyLower articleGoldman.summary) "gold" = false ∧
    strContains (pyLower articleGoldman.title) "gold price" = false ∧
    articleGoldman.is_quality_gold_commodity_news = true := by
  refine ⟨by decide, by decide, by decide, by decide⟩

/-- C9 (amended): the gold-news predicate requires the substring `gold` in
title or summary AND a gold-market context phrase AND no corporate-action
exclusion — but since the match is plain substring containment and the
Goldman-specific exclusions are disabled in the source, the name "Goldman"
satisfies the `gold` requirement, so a Goldman Sachs article carrying a
context phrase such as "precious metals" *is* accepted. -/
theorem claim_C9 (a : NormalizedArticle)
    (hexcl : company_exclusions_gold.any
      (fun t => strContains (pyLower a.title) t ||
                strContains (pyLower a.summary) t) = false)
    (hgold : (strContains (pyLower a.title) "gold" ||
              strContains (pyLower a.summary) "gold") = true)
    (hctx : gold_commodity_terms.any
      (fun t => strContains (pyLower a.title) t ||
                strContains (pyLower a.summary) t) = true) :
    a.is_quality_gold_commodity_news = true := by
  simp only [NormalizedArticle.is_quality_gold_commodity_news,
    is_quality_gold_commodity_news_str, hexcl, hgold, hctx,
    Bool.false_eq_true, if_false, Bool.and_self]

/-- Witness for `claim_C9`: its hypotheses hold at `articleGoldman`
("goldman" supplies the `gold` substring, "precious metals" the context),
so the theorem accepts the article. -/
theorem claim_C9_witness :
    articleGoldman.is_quality_gold_commodity_news = true :=
  claim_C9 articleGoldman (by decide) (by decide) (by decide)

/-! ## Claim C6 -/

/-- Concrete article from a premium outlet. -/
def articlePremiumSource : NormalizedArticle :=
  { title := "Dollar strengthens against rivals in early trading session"
    summary := "Currency markets move ahead of economic data"
    source := "Reuters"
    time_published := "20251010T120000"
    sentiment := "neutral"
    sentiment_score := mkRat 2 10
    tickers := []
    url := ""
    quality_score := 75 }

/-- The same article from an unknown source. -/
def articleUnknownSource : NormalizedArticle :=
  { articlePremiumSource with source := "some-unknown-blog" }

/-- C6 (counterexample): `_get_priority_score` has no source-credibility
component — it never reads `source`.  Two articles identical in every
field except source (one from the wire-service allow-list, one unknown)
receive *equal* scores, so the premium-source article does not score
strictly higher. -/
theorem claim_C6_counterexample :
    articlePremiumSource.source ≠ articleUnknownSource.source ∧
    articlePremiumSource.title = articleUnknownSource.title ∧
    articlePremiumSource.summary = articleUnknownSource.summary ∧
    articlePremiumSource.sentiment_score = articleUnknownSource.sentiment_score ∧
    articlePremiumSource.tickers = articleUnknownSource.tickers ∧
    get_priority_score articlePremiumSource = get_priority_score articleUnknownSource ∧
    ¬ get_priority_score articleUnknownSource < get_priority_score articlePremiumSource := by
  refine ⟨by decide, rfl, rfl, rfl, rfl, by decide, by decide⟩

/-- C6 (amended): the relevance/priority score contains no
source-credibility factor at all: replacing the source of any article by
any other string leaves `_get_priority_score` unchanged, so two articles
identical except for their source always score equally. -/
theorem claim_C6 (a : NormalizedArticle) (src : String) :
    get_priority_score { a with source := src } = get_priority_score a := by
  cases a
  rfl

/-! ## Claim C10 -/

/-- The `style_keys` lists exactly the keys of `style_guide`. -/
theorem style_keys_eq_map_fst : style_keys = style_guide.map Prod.fst := by
  decide

/-- Lookup misses exactly outside the key set. -/
theorem lookup_eq_none_of_not_mem (key : String) :
    ∀ l : List (String × StyleConfig), key ∉ l.map Prod.fst → l.lookup key = none
  | [], _ => rfl
  | (k, v) :: es, h => by
    have hk : (key == k) = false := by
      apply beq_eq_false_iff_ne.mpr
      intro e
      exact h (by simp [e])
    have hrest : key ∉ es.map Prod.fst := fun hm => h (by simp [hm])
    simp only [List.lookup, hk]
    exact lookup_eq_none_of_not_mem key es hrest

/-- C10: `generate_content` evaluates `self.style_guide[style_key]` in its
first statement, so (a) any key outside the six defined style keys makes it
fail with the key-lookup error immediately — uniformly in the day and in
the news-fetching and content-making functions, hence before any news is
fetched — and (b) each of the six defined keys never fails the style
lookup. -/
theorem claim_C10 :
    (∀ (key today : String) (fetch : Nat → Nat → List NormalizedArticle)
        (make : StyleConfig → List NormalizedArticle → String),
        key ∉ style_keys →
        generate_content today fetch make key = .error key) ∧
    (∀ key ∈ style_keys, ∀ (today : String)
        (fetch : Nat → Nat → List NormalizedArticle)
        (make : StyleConfig → List NormalizedArticle → String),
        ∃ out, generate_content today fetch make key = .ok out) := by
  constructor
  · intro key today fetch make hk
    have hnone : style_guide.lookup key = none := by
      apply lookup_eq_none_of_not_mem
      rw [← style_keys_eq_map_fst]
      exact hk
    simp only [generate_content, hnone]
  · intro key hk today fetch make
    simp only [style_keys, List.mem_cons, List.mem_singleton,
      List.not_mem_nil, or_false] at hk
    rcases hk with rfl | rfl | rfl | rfl | rfl | rfl <;>
      exact ⟨_, rfl⟩

/-- Witness for `claim_C10`: the unknown key `"mystery_style"` yields the
key-lookup error for every fetcher, and the defined key `"classic_daily"`
succeeds. -/
theorem claim_C10_witness :
    generate_content ("Monday") (fun _ _ => []) (fun _ _ => "script") ("mystery_style")
      = .error ("mystery_style") ∧
    ∃ out, generate_content ("Monday") (fun _ _ => []) (fun _ _ => "script")
      ("classic_daily") = .ok out :=
  ⟨claim_C10.1 ("mystery_style") ("Monday") _ _ (by decide),
   claim_C10.2 ("classic_daily") (by decide) ("Monday") _ _⟩

/-! ## Lemmas about the stable sort -/

/-- Elements of an insertion are the inserted element or old elements. -/
theorem mem_insert_by_score {x z : NormalizedArticle} :
    ∀ {l : List NormalizedArticle}, z ∈ insert_by_score x l → z = x ∨ z ∈ l := by
  intro l
  induction l with
  | nil => intro h; simp [insert_by_score] at h; exact Or.inl h
  | cons y ys ih =>
    intro h
    by_cases hlt : get_priority_score x < get_priority_score y
    · simp only [insert_by_score, if_pos hlt, List.mem_cons] at h
      rcases h with rfl | h
      · exact Or.inr (List.mem_cons_self _ _)
      · rcases ih h with rfl | h'
        · exact Or.inl rfl
        · exact Or.inr (List.mem_cons_of_mem _ h')
    · simp only [insert_by_score, if_neg hlt, List.mem_cons] at h
      rcases h with rfl | h
      · exact Or.inl rfl
      · exact Or.inr (by simpa using h)

/-- Insertion keeps the list sorted by descending priority score. -/
theorem pairwise_insert_by_score {x : NormalizedArticle} :
    ∀ {l : List NormalizedArticle},
    l.Pairwise (fun a b => get_priority_score b ≤ get_priority_score a) →
    (insert_by_score x l).Pairwise
      (fun a b => get_priority_score b ≤ get_priority_score a) := by
  intro l
  induction l with
  | nil => intro _; simp [insert_by_score]
  | cons y ys ih =>
    intro h
    rcases List.pairwise_cons.mp h with ⟨hy, hys⟩
    by_cases hlt : get_priority_score x < get_priority_score y
    · rw [insert_by_score, if_pos hlt]
      refine List.pairwise_cons.mpr ⟨?_, ih hys⟩
      intro z hz
      rcases mem_insert_by_score hz with rfl | hz'
      · exact Nat.le_of_lt hlt
      · exact hy z hz'
    · rw [insert_by_score, if_neg hlt]
      refine List.pairwise_cons.mpr ⟨?_, h⟩
      intro z hz
      rcases List.mem_cons.mp hz with rfl | hz'
      · exact Nat.le_of_not_lt hlt
      · exact Nat.le_trans (hy z hz') (Nat.le_of_not_lt hlt)

/-- The stable sort produces a list sorted by descending priority score. -/
theorem pairwise_sort_by_score (l : List NormalizedArticle) :
    (sort_by_score l).Pairwise
      (fun a b => get_priority_score b ≤ get_priority_score a) := by
  induction l with
  | nil => simp [sort_by_score]
  | cons x xs ih => exact pairwise_insert_by_score ih

/-- Stability of the insertion step: restricted to any fixed score `s`,
inserting `x` behaves like prepending it (the insertion point lies past
strictly greater scores only). -/
theorem filter_insert_by_score (s : Nat) (x : NormalizedArticle) :
    ∀ l : List NormalizedArticle,
    (insert_by_score x l).filter (fun a => get_priority_score a == s)
      = (x :: l).filter (fun a => get_priority_score a == s) := by
  intro l
  induction l with
  | nil => rfl
  | cons y ys ih =>
    by_cases hlt : get_priority_score x < get_priority_score y
    · rw [insert_by_score, if_pos hlt]
      by_cases hx : get_priority_score x = s
      · have hy : (get_priority_score y == s) = false := by
          simp only [beq_eq_false_iff_ne, ne_eq]
          omega
        simp only [List.filter_cons, hy, Bool.false_eq_true, if_false]
        rw [ih]
        simp only [List.filter_cons, hy, Bool.false_eq_true, if_false]
      · have hx' : (get_priority_score x == s) = false := by
          simpa using hx
        simp only [List.filter_cons, hx', Bool.false_eq_true, if_false] at ih ⊢
        rw [ih]
    · rw [insert_by_score, if_neg hlt]

/-- Stability of the sort: restricted to any fixed score, the sorted list
coincides with the input (equal-score elements keep their order). -/
theorem filter_sort_by_score (s : Nat) :
    ∀ l : List NormalizedArticle,
    (sort_by_score l).filter (fun a => get_priority_score a == s)
      = l.filter (fun a => get_priority_score a == s) := by
  intro l
  induction l with
  | nil => rfl
  | cons x xs ih =>
    rw [sort_by_score, filter_insert_by_score]
    simp only [List.filter_cons]
    rw [ih]

/-! ## Lemmas about deduplication -/

/-- The deduplicated list is a sublist (hence an order-preserving
selection) of the input. -/
theorem dedup_go_sublist (seen : List String) :
    ∀ l : List NormalizedArticle,
    List.Sublist (remove_duplicate_headlines_go seen l) l := by
  intro l
  induction l generalizing seen with
  | nil => simp [remove_duplicate_headlines_go]
  | cons h hs ih =>
    by_cases hmem : titleKey h.title ∈ seen
    · rw [remove_duplicate_headlines_go, if_pos hmem]
      exact (ih seen).cons h
    · rw [remove_duplicate_headlines_go, if_neg hmem]
      exact (ih _).cons₂ h

/-- Keys already seen never reappear in the output. -/
theorem dedup_go_key_not_seen (seen : List String) :
    ∀ (l : List NormalizedArticle) (a : NormalizedArticle),
    a ∈ remove_duplicate_headlines_go seen l → titleKey a.title ∉ seen := by
  intro l
  induction l generalizing seen with
  | nil => intro a ha; simp [remove_duplicate_headlines_go] at ha
  | cons h hs ih =>
    intro a ha
    by_cases hmem : titleKey h.title ∈ seen
    · rw [remove_duplicate_headlines_go, if_pos hmem] at ha
      exact ih seen a ha
    · rw [remove_duplicate_headlines_go, if_neg hmem] at ha
      rcases List.mem_cons.mp ha with rfl | ha'
      · exact hmem
      · intro hseen
        exact ih _ a ha' (List.mem_cons_of_mem _ hseen)

/-- Output title keys are pairwise distinct. -/
theorem dedup_go_keys_nodup (seen : List String) :
    ∀ l : List NormalizedArticle,
    ((remove_duplicate_headlines_go seen l).map (fun a => titleKey a.title)).Nodup := by
  intro l
  induction l generalizing seen with
  | nil => simp [remove_duplicate_headlines_go]
  | cons h hs ih =>
    by_cases hmem : titleKey h.title ∈ seen
    · rw [remove_duplicate_headlines_go, if_pos hmem]
      exact ih seen
    · rw [remove_duplicate_headlines_go, if_neg hmem]
      refine List.nodup_cons.mpr ⟨?_, ih _⟩
      intro hk
      rcases List.mem_map.mp hk with ⟨b, hb, hkey⟩
      exact dedup_go_key_not_seen _ hs b hb (by simp [hkey])

/-- For a key not yet seen, the first output article with that key is the
first input article with that key. -/
theorem dedup_go_find (seen : List String) (k : String) :
    ∀ l : List NormalizedArticle, k ∉ seen →
    (remove_duplicate_headlines_go seen l).find? (fun a => titleKey a.title == k)
      = l.find? (fun a => titleKey a.title == k) := by
  intro l
  induction l generalizing seen with
  | nil => intro _; rfl
  | cons h hs ih =>
    intro hk
    by_cases hmem : titleKey h.title ∈ seen
    · rw [remove_duplicate_headlines_go, if_pos hmem]
      have hne : (titleKey h.title == k) = false := by
        apply beq_eq_false_iff_ne.mpr
        intro e; exact hk (e ▸ hmem)
      rw [ih seen hk, List.find?_cons, hne]
    · rw [remove_duplicate_headlines_go, if_neg hmem]
      by_cases heq : titleKey h.title = k
      · rw [List.find?_cons, List.find?_cons]
        have : (titleKey h.title == k) = true := beq_iff_eq.mpr heq
        rw [this]
      · have hne : (titleKey h.title == k) = false := beq_eq_false_iff_ne.mpr heq
        rw [List.find?_cons, List.find?_cons, hne]
        refine ih _ ?_
        intro hmem'
        rcases List.mem_cons.mp hmem' with e | e
        · exact heq e.symm
        · exact hk e

/-! ## Claim C7 -/

/-- C7 (confirmed): for every pair of headline lists (guaranteed first,
then general pool) and every limit, the aggregated headline set is sorted
in descending priority-score order, equal-score articles keep their
insertion order (they form a subsequence of the deduplicated
guaranteed-then-general concatenation), and the result length is at most
the limit. -/
theorem claim_C7 (guaranteed general : List NormalizedArticle) (limit : Nat) :
    (aggregate_headlines guaranteed general limit).Pairwise
      (fun a b => get_priority_score b ≤ get_priority_score a) ∧
    (∀ s : Nat, List.Sublist
      ((aggregate_headlines guaranteed general limit).filter
        (fun a => get_priority_score a == s))
      ((remove_duplicate_headlines (guaranteed ++ general)).filter
        (fun a => get_priority_score a == s))) ∧
    (aggregate_headlines guaranteed general limit).length ≤ limit := by
  refine ⟨?_, ?_, ?_⟩
  · exact (pairwise_sort_by_score _).sublist (List.take_sublist _ _)
  · intro s
    have h1 : List.Sublist
        ((aggregate_headlines guaranteed general limit).filter
          (fun a => get_priority_score a == s))
        ((sort_by_score (remove_duplicate_headlines (guaranteed ++ general))).filter
          (fun a => get_priority_score a == s)) :=
      (List.take_sublist _ _).filter _
    rw [filter_sort_by_score] at h1
    exact h1
  · calc (aggregate_headlines guaranteed general limit).length
        = min limit (sort_by_score
            (remove_duplicate_headlines (guaranteed ++ general))).length := by
          simp [aggregate_headlines, List.length_take]
      _ ≤ limit := Nat.min_le_left _ _

/-! ## Claim C8 -/

/-- C8 (confirmed): deduplication keeps, for every 60-character case-folded
title key, exactly the first article carrying that key, in input order
(output is a sublist of the input with pairwise-distinct keys, and its
first match for any key is the input's first match); consequently, when a
key occurs both in the guaranteed list and in the general pool, the
retained article is the guaranteed one. -/
theorem claim_C8 :
    (∀ l : List NormalizedArticle,
      List.Sublist (remove_duplicate_headlines l) l ∧
      ((remove_duplicate_headlines l).map (fun a => titleKey a.title)).Nodup ∧
      ∀ k : String,
        (remove_duplicate_headlines l).find? (fun a => titleKey a.title == k)
          = l.find? (fun a => titleKey a.title == k)) ∧
    (∀ (g r : List NormalizedArticle) (k : String),
      (∃ x ∈ g, titleKey x.title = k) →
      ∀ b : NormalizedArticle,
        (remove_duplicate_headlines (g ++ r)).find?
          (fun a => titleKey a.title == k) = some b →
        b ∈ g) := by
  constructor
  · intro l
    exact ⟨dedup_go_sublist [] l, dedup_go_keys_nodup [] l,
      fun k => dedup_go_find [] k l (List.not_mem_nil k)⟩
  · intro g r k hex b hfind
    simp only [remove_duplicate_headlines] at hfind
    rw [dedup_go_find [] k (g ++ r) (List.not_mem_nil k)] at hfind
    rw [List.find?_append] at hfind
    have hsome : (g.find? (fun a => titleKey a.title == k)).isSome := by
      rcases hex with ⟨x, hx, hkey⟩
      exact List.find?_isSome.mpr ⟨x, hx, beq_iff_eq.mpr hkey⟩
    rcases Option.isSome_iff_exists.mp hsome with ⟨b', hb'⟩
    rw [hb'] at hfind
    have hfind' : some b' = some b := hfind
    cases hfind'
    exact List.mem_of_find?_eq_some hb'

/-- Concrete duplicate pair: same case-folded 60-character prefix,
different full titles. -/
def guaranteedDup : NormalizedArticle :=
  { title := "Gold price surges to a fresh record as central banks keep buying it"
    summary := "Bullion extends gains"
    source := "reuters"
    time_published := "20251010T120000"
    sentiment := "bullish"
    sentiment_score := mkRat 3 10
    tickers := []
    url := ""
    quality_score := 75 }

/-- A general-pool article whose title agrees with `guaranteedDup` on the
first 60 case-folded characters but differs afterwards. -/
def generalDup : NormalizedArticle :=
  { guaranteedDup with
    title := "GOLD PRICE SURGES TO A FRESH RECORD AS CENTRAL BANKS KEEP BUYING EVEN MORE"
    summary := "A different body text"
    source := "somewire" }

/-- Witness for `claim_C8`: the two concrete articles share a key, the
deduplicated combined list retains only the guaranteed one, and the
theorem concludes that any retained article with that key comes from the
guaranteed list. -/
theorem claim_C8_witness :
    titleKey guaranteedDup.title = titleKey generalDup.title ∧
    guaranteedDup.title ≠ generalDup.title ∧
    remove_duplicate_headlines ([guaranteedDup] ++ [generalDup]) = [guaranteedDup] ∧
    ∀ b : NormalizedArticle,
      (remove_duplicate_headlines ([guaranteedDup] ++ [generalDup])).find?
        (fun a => titleKey a.title == titleKey guaranteedDup.title) = some b →
      b ∈ [guaranteedDup] := by
  refine ⟨by decide, by decide, by decide, ?_⟩
  exact claim_C8.2 [guaranteedDup] [generalDup] (titleKey guaranteedDup.title)
    ⟨guaranteedDup, List.mem_singleton_self _, rfl⟩

/-! ## Claim C4 -/

/-- A single failing coercion poisons the whole batch. -/
theorem normalize_batch_eq_none :
    ∀ l : List RawArticle, (∃ a ∈ l, normalize_article a = none) →
    normalize_batch l = none := by
  intro l
  induction l with
  | nil => rintro ⟨a, ha, _⟩; simp at ha
  | cons x xs ih =>
    rintro ⟨a, ha, hn⟩
    rcases List.mem_cons.mp ha with rfl | ha'
    · simp only [normalize_batch, hn]
    · rw [normalize_batch, ih ⟨a, ha', hn⟩]
      cases normalize_article x <;> rfl

/-- C4 (amended): a sentiment score that `float(...)` cannot coerce does
not merely drop its own article: because the whole list comprehension of
`_get_high_quality_news` runs inside one `try`, a single admitted article
with a non-coercible score makes the entire call return the empty list
(the whole batch is discarded; no exception reaches the caller). -/
theorem claim_C4 (feed : List RawArticle) (limit : Nat)
    (h : ∃ a ∈ feed, is_quality_financial_content a = true ∧
      normalize_article a = none) :
    get_high_quality_news feed limit = [] := by
  rcases h with ⟨a, hmem, hq, hn⟩
  have hb : normalize_batch (feed.filter is_quality_financial_content) = none :=
    normalize_batch_eq_none _ ⟨a, List.mem_filter.mpr ⟨hmem, hq⟩, hn⟩
  simp only [get_high_quality_news, hb]

/-- Concrete admitted article with a well-formed sentiment score. -/
def articleGoodScore : RawArticle :=
  { title := "Apple reports record quarterly revenue growth this year"
    summary := "Strong results across all segments"
    source := "cnbc"
    time_published := "20251010T120000"
    overall_sentiment_label := "bullish"
    overall_sentiment_score := .num (mkRat 5 10)
    ticker_sentiment := [{ ticker := some ("AAPL") }]
    url := "" }

/-- Concrete admitted article whose sentiment score is a non-numeric
string, so `float(...)` raises on it. -/
def articleBadScore : RawArticle :=
  { title := "Fed weighs interest rate cut amid cooling inflation data"
    summary := "Policy makers are watching the latest numbers"
    source := "reuters"
    time_published := "20251010T110000"
    overall_sentiment_label := "neutral"
    overall_sentiment_score := .nonNumeric ("None")
    ticker_sentiment := []
    url := "" }

/-- C4 (counterexample): in a two-article batch where exactly one article
has a non-coercible sentiment score, the pipeline returns `[]` instead of
the one well-formed normalized article: the malformed record discards the
whole batch. -/
theorem claim_C4_counterexample :
    is_quality_financial_content articleGoodScore = true ∧
    (normalize_article articleGoodScore).isSome = true ∧
    is_quality_financial_content articleBadScore = true ∧
    normalize_article articleBadScore = none ∧
    get_high_quality_news [articleGoodScore, articleBadScore] 8 = [] := by
  refine ⟨by decide, by decide, by decide, by decide, by decide⟩

/-- Witness for `claim_C4`: the hypothesis holds at the concrete
two-article feed, and the theorem yields the empty batch. -/
theorem claim_C4_witness :
    get_high_quality_news [articleGoodScore, articleBadScore] 8 = [] :=
  claim_C4 [articleGoodScore, articleBadScore] 8
    ⟨articleBadScore, by decide, by decide, by decide⟩

/-! ## Lemmas about the guarantor and the headline pipeline -/

/-- Elements of the sorted list come from the input. -/
theorem mem_of_mem_sort {z : NormalizedArticle} :
    ∀ {l : List NormalizedArticle}, z ∈ sort_by_score l → z ∈ l := by
  intro l
  induction l with
  | nil => intro h; simp [sort_by_score] at h
  | cons x xs ih =>
    intro h
    rw [sort_by_score] at h
    rcases mem_insert_by_score h with rfl | h'
    · exact List.mem_cons_self _ _
    · exact List.mem_cons_of_mem _ (ih h')

/-- Every article accepted by one guarantor window step either was already
accepted or passes the generic quality predicate together with one of the
category predicates. -/
theorem guarantor_window_mem {limit : Nat} {hs acc : List NormalizedArticle}
    {a : NormalizedArticle} (h : a ∈ guarantor_window limit hs acc) :
    a ∈ acc ∨ (is_quality_headline a = true ∧
      (a.is_quality_gold_commodity_news = true ∨
       a.is_quality_crypto_market_news = true)) := by
  rw [guarantor_window] at h
  set acc1 :=
    (if acc.countP (fun h => h.is_quality_gold_commodity_news) = 0 then
      match hs.find? (fun h => h.is_quality_gold_commodity_news && is_quality_headline h) with
      | some h => acc ++ [h]
      | none => acc
    else acc) with hacc1
  have hmem1 : ∀ b ∈ acc1, b ∈ acc ∨ (is_quality_headline b = true ∧
      (b.is_quality_gold_commodity_news = true ∨
       b.is_quality_crypto_market_news = true)) := by
    intro b hb
    rw [hacc1] at hb
    split at hb
    · split at hb
      next x heq =>
        rcases List.mem_append.mp hb with hb' | hb'
        · exact Or.inl hb'
        · have hx := List.find?_some heq
          simp only [Bool.and_eq_true] at hx
          obtain ⟨hg, hq⟩ := hx
          have : b = x := List.mem_singleton.mp hb'
          subst this
          exact Or.inr ⟨hq, Or.inl hg⟩
      next => exact Or.inl hb
    · exact Or.inl hb
  split at h
  · split at h
    next x heq =>
      rcases List.mem_append.mp h with hb' | hb'
      · exact hmem1 _ hb'
      · have hx := List.find?_some heq
        simp only [Bool.and_eq_true] at hx
        obtain ⟨⟨hc, hq⟩, _⟩ := hx
        have : a = x := List.mem_singleton.mp hb'
        subst this
        exact Or.inr ⟨hq, Or.inr hc⟩
    next => exact hmem1 _ h
  · exact hmem1 _ h

/-- Accumulated invariant over all windows. -/
theorem guarantor_go_mem (fetch : Nat × Nat → List NormalizedArticle) (limit : Nat) :
    ∀ (ws : List (Nat × Nat)) (acc : List NormalizedArticle) (a : NormalizedArticle),
    a ∈ (guarantor_go fetch limit ws acc).1 →
    a ∈ acc ∨ (is_quality_headline a = true ∧
      (a.is_quality_gold_commodity_news = true ∨
       a.is_quality_crypto_market_news = true)) := by
  intro ws
  induction ws with
  | nil => intro acc a h; exact Or.inl h
  | cons w ws ih =>
    intro acc a h
    rw [guarantor_go] at h
    split at h
    · exact Or.inl h
    · simp only at h
      rcases ih _ a h with h' | h'
      · exact guarantor_window_mem h'
      · exact Or.inr h'

/-- Normalization of a successful batch produces articles that each come
from some input record. -/
theorem normalize_batch_mem :
    ∀ {l : List RawArticle} {l' : List NormalizedArticle},
    normalize_batch l = some l' →
    ∀ b ∈ l', ∃ a ∈ l, normalize_article a = some b := by
  intro l
  induction l with
  | nil =>
    intro l' h b hb
    cases h
    simp at hb
  | cons x xs ih =>
    intro l' h b hb
    rw [normalize_batch] at h
    rcases hx : normalize_article x with _ | n <;> rw [hx] at h
    · exact absurd h (by simp)
    · rcases hxs : normalize_batch xs with _ | ns <;> rw [hxs] at h
      · exact absurd h (by simp)
      · cases h
        rcases List.mem_cons.mp hb with rfl | hb'
        · exact ⟨x, List.mem_cons_self _ _, hx⟩
        · rcases ih hxs b hb' with ⟨a, ha, hna⟩
          exact ⟨a, List.mem_cons_of_mem _ ha, hna⟩

/-- Normalization preserves title, summary and source verbatim. -/
theorem normalize_article_fields {a : RawArticle} {n : NormalizedArticle}
    (h : normalize_article a = some n) :
    n.title = a.title ∧ n.summary = a.summary ∧ n.source = a.source := by
  rcases hc : coerceFloat a.overall_sentiment_score with _ | q <;>
    rw [normalize_article, hc] at h
  · exact absurd h (by simp)
  · cases h
    exact ⟨rfl, rfl, rfl⟩

/-- Every article returned by `_get_regular_headlines` passed
`_is_quality_major_headline` (as a raw record, whose relevant fields the
normalization preserved). -/
theorem get_regular_headlines_mem {feed : List RawArticle} {rl : Int}
    {b : NormalizedArticle} (h : b ∈ get_regular_headlines feed rl) :
    b.is_quality_major_headline = true := by
  rw [get_regular_headlines] at h
  split at h
  · simp at h
  · rcases hb : normalize_batch (feed.filter RawArticle.is_quality_major_headline)
      with _ | arts <;> rw [hb] at h
    · simp at h
    · have hmem : b ∈ arts :=
        mem_of_mem_sort ((List.take_sublist _ _).mem h)
      rcases normalize_batch_mem hb b hmem with ⟨a, ha, hna⟩
      have hq : a.is_quality_major_headline = true :=
        (List.mem_filter.mp ha).2
      rcases normalize_article_fields hna with ⟨ht, hs, hsrc⟩
      show is_quality_major_headline_str b.title b.summary b.source = true
      rw [ht, hs, hsrc]
      exact hq

/-! ## Claim C3 -/

/-- C3 (amended): every article in the final major-headlines output passed
*a* content filter, but not all of them the same one: articles from the
general pool passed `_is_quality_major_headline`, while articles injected
by the gold/crypto guarantor passed the basic `_is_quality_headline` check
together with their category predicate — the guarantor's picks are *not*
subjected to the general-pool admission predicate. -/
theorem claim_C3 (fetch : Nat × Nat → List NormalizedArticle)
    (feed : List RawArticle) (limit : Nat) (a : NormalizedArticle)
    (ha : a ∈ get_major_headlines fetch feed limit) :
    a.is_quality_major_headline = true ∨
      (is_quality_headline a = true ∧
        (a.is_quality_gold_commodity_news = true ∨
         a.is_quality_crypto_market_news = true)) := by
  simp only [get_major_headlines] at ha
  have h1 : a ∈ remove_duplicate_headlines
      ((get_guaranteed_gold_bitcoin_headlines fetch 2).1 ++
        get_regular_headlines feed
          ((limit : Int) - (get_guaranteed_gold_bitcoin_headlines fetch 2).1.length)) :=
    mem_of_mem_sort ((List.take_sublist _ _).mem ha)
  have h2 := (dedup_go_sublist [] _).mem h1
  rcases List.mem_append.mp h2 with hg | hr
  · have hg' : a ∈ (guarantor_go fetch 2 time_ranges []).1 :=
      (List.take_sublist _ _).mem hg
    rcases guarantor_go_mem fetch 2 time_ranges [] a hg' with h' | h'
    · simp at h'
    · exact Or.inr h'
  · exact Or.inl (get_regular_headlines_mem hr)

/-- Concrete gold-commodity article that fails the general-pool admission
predicate `_is_quality_major_headline` (its title carries none of that
filter's quality indicators) but passes the guarantor's checks. -/
def goldOnlyFetchArticle : NormalizedArticle :=
  { title := "Gold futures climb to fresh peak on strong demand"
    summary := "Analysts cite central bank gold buying"
    source := "kitco"
    time_published := "20251010T120000"
    sentiment := "bullish"
    sentiment_score := mkRat 2 10
    tickers := []
    url := ""
    quality_score := 75 }

/-- A fetch returning the gold article in the nearest window only. -/
def goldOnlyFetch : Nat × Nat → List NormalizedArticle :=
  fun w => if w = (0, 1) then [goldOnlyFetchArticle] else []

/-- C3 (counterexample): a guarantor-selected gold article reaches the
final `get_major_headlines` output even though the general-pool admission
predicate `_is_quality_major_headline` rejects it — so not every final
article passed the Content Filter predicate that governs the general pool,
and the guarantor's picks are not subject to that same predicate. -/
theorem claim_C3_counterexample :
    goldOnlyFetchArticle.is_quality_major_headline = false ∧
    is_quality_headline goldOnlyFetchArticle = true ∧
    goldOnlyFetchArticle.is_quality_gold_commodity_news = true ∧
    get_major_headlines goldOnlyFetch [] 15 = [goldOnlyFetchArticle] := by
  refine ⟨by decide, by decide, by decide, by decide⟩

/-- Witness for `claim_C3`: the concrete gold article is in the concrete
output, and the theorem's disjunction holds for it (through its right
disjunct). -/
theorem claim_C3_witness :
    goldOnlyFetchArticle.is_quality_major_headline = true ∨
      (is_quality_headline goldOnlyFetchArticle = true ∧
        (goldOnlyFetchArticle.is_quality_gold_commodity_news = true ∨
         goldOnlyFetchArticle.is_quality_crypto_market_news = true)) :=
  claim_C3 goldOnlyFetch [] 15 goldOnlyFetchArticle (by decide)

/-! ## Claim C5 -/

/-- The `find?` returns the unique element satisfying the predicate. -/
theorem find?_first {α : Type} {p : α → Bool} {g : α} :
    ∀ {l : List α}, g ∈ l → p g = true → (∀ a ∈ l, p a = true → a = g) →
    l.find? p = some g := by
  intro l
  induction l with
  | nil => intro h; simp at h
  | cons x xs ih =>
    intro hmem hpg huniq
    cases hx : p x with
    | false =>
      rcases List.mem_cons.mp hmem with rfl | hmem'
      · rw [hpg] at hx; cases hx
      · simp only [List.find?_cons, hx]
        exact ih hmem' hpg fun a ha hp => huniq a (List.mem_cons_of_mem _ ha) hp
    | true =>
      have hxg := huniq x (List.mem_cons_self _ _) hx
      subst hxg
      simp only [List.find?_cons, hx]

/-- A window with no qualifying gold article leaves the gold slot alone:
the step keeps the accumulator gold-free and appends at most one crypto
article, and only when no accepted article already passes the crypto
predicate. -/
theorem guarantor_window_no_gold {hs acc : List NormalizedArticle}
    (hw : ∀ a ∈ hs, ¬(a.is_quality_gold_commodity_news = true ∧
      is_quality_headline a = true))
    (hacc : ∀ a ∈ acc, a.is_quality_gold_commodity_news = false) :
    (∀ a ∈ guarantor_window 2 hs acc, a.is_quality_gold_commodity_news = false) ∧
    (guarantor_window 2 hs acc = acc ∨
      (acc.countP (fun h => h.is_quality_crypto_market_news) = 0 ∧
       ∃ c ∈ hs, guarantor_window 2 hs acc = acc ++ [c] ∧
         c.is_quality_crypto_market_news = true ∧ is_quality_headline c = true)) := by
  have hc0 : acc.countP (fun h => h.is_quality_gold_commodity_news) = 0 :=
    List.countP_eq_zero.mpr fun a ha => by simp [hacc a ha]
  have hf : hs.find?
      (fun h => h.is_quality_gold_commodity_news && is_quality_headline h) = none :=
    List.find?_eq_none.mpr fun x hx hpx => by
      simp only [Bool.and_eq_true] at hpx
      exact hw x hx hpx
  simp only [guarantor_window, hc0, if_true, hf]
  by_cases hcnt : acc.countP (fun h => h.is_quality_crypto_market_news) = 0
  · by_cases hlen : acc.length < 2
    · rcases hcf : hs.find? (fun h => h.is_quality_crypto_market_news &&
          is_quality_headline h && !acc.any fun existing => headlines_similar h existing)
        with _ | c
      · simp only [if_pos (And.intro hcnt hlen), hcf]
        exact ⟨hacc, Or.inl (by simp)⟩
      · simp only [if_pos (And.intro hcnt hlen), hcf]
        have hc := List.find?_some hcf
        simp only [Bool.and_eq_true] at hc
        have hcm := List.mem_of_find?_eq_some hcf
        refine ⟨?_, Or.inr ⟨hcnt, c, hcm, by simp, hc.1.1, hc.1.2⟩⟩
        intro a ha
        rcases List.mem_append.mp ha with ha' | ha'
        · exact hacc a ha'
        · have he : a = c := List.mem_singleton.mp ha'
          subst he
          cases hg : a.is_quality_gold_commodity_news
          · rfl
          · exact absurd ⟨hg, hc.1.2⟩ (hw a hcm)
    · have hnc : ¬(acc.countP (fun h => h.is_quality_crypto_market_news) = 0 ∧
          acc.length < 2) := fun hand => hlen hand.2
      simp only [if_neg hnc]
      exact ⟨hacc, Or.inl (by simp)⟩
  · have hnc : ¬(acc.countP (fun h => h.is_quality_crypto_market_news) = 0 ∧
        acc.length < 2) := fun hand => hcnt hand.1
    simp only [if_neg hnc]
    exact ⟨hacc, Or.inl (by simp)⟩

/-- A window whose fetched articles contain a first qualifying gold article
appends it (and possibly one crypto article after it). -/
theorem guarantor_window_gold_found {hs acc : List NormalizedArticle}
    {g : NormalizedArticle}
    (hacc : ∀ a ∈ acc, a.is_quality_gold_commodity_news = false)
    (hf : hs.find?
      (fun h => h.is_quality_gold_commodity_news && is_quality_headline h) = some g) :
    guarantor_window 2 hs acc = acc ++ [g] ∨
      ∃ c, guarantor_window 2 hs acc = (acc ++ [g]) ++ [c] := by
  have hc0 : acc.countP (fun h => h.is_quality_gold_commodity_news) = 0 :=
    List.countP_eq_zero.mpr fun a ha => by simp [hacc a ha]
  simp only [guarantor_window, hc0, if_true, hf]
  by_cases hcond : (acc ++ [g]).countP (fun h => h.is_quality_crypto_market_news) = 0
      ∧ (acc ++ [g]).length < 2
  · rcases hcf : hs.find? (fun h => h.is_quality_crypto_market_news &&
        is_quality_headline h &&
        !(acc ++ [g]).any fun existing => headlines_similar h existing)
      with _ | c
    · simp only [if_pos hcond, hcf]
      exact Or.inl (by simp)
    · simp only [if_pos hcond, hcf]
      exact Or.inr ⟨c, by simp⟩
  · simp only [if_neg hcond]
    exact Or.inl (by simp)

/-- Once an accepted article passes the gold predicate, later windows never
fill the gold slot again; they can only append one crypto article. -/
theorem guarantor_window_gold_present {hs acc : List NormalizedArticle}
    (h : ∃ a ∈ acc, a.is_quality_gold_commodity_news = true) :
    guarantor_window 2 hs acc = acc ∨
      ∃ c, guarantor_window 2 hs acc = acc ++ [c] := by
  have hc : ¬ acc.countP (fun h => h.is_quality_gold_commodity_news) = 0 := by
    intro h0
    rcases h with ⟨a, ha, hg⟩
    have := List.countP_eq_zero.mp h0 a ha
    simp [hg] at this
  simp only [guarantor_window, if_neg hc]
  by_cases hcond : acc.countP (fun h => h.is_quality_crypto_market_news) = 0
      ∧ acc.length < 2
  · rcases hcf : hs.find? (fun h => h.is_quality_crypto_market_news &&
        is_quality_headline h && !acc.any fun existing => headlines_similar h existing)
      with _ | c
    · simp only [if_pos hcond, hcf]
      exact Or.inl (by simp)
    · simp only [if_pos hcond, hcf]
      exact Or.inr ⟨c, by simp⟩
  · simp only [if_neg hcond]
    exact Or.inl (by simp)

/-- An article preceded by at most one element stays within the first two
positions. -/
theorem mem_take_two {pre post : List NormalizedArticle} {g : NormalizedArticle}
    (hpre : pre.length ≤ 1) : g ∈ (pre ++ g :: post).take 2 := by
  rcases pre with _ | ⟨p, _ | ⟨q, rest⟩⟩
  · simp
  · simp [List.take]
  · exfalso
    simp [List.length_cons] at hpre

/-- Processing the last window keeps an already accepted gold article among
the first two accepted articles. -/
theorem guarantor_last_window_keeps (fetch : Nat × Nat → List NormalizedArticle)
    (pre post : List NormalizedArticle) (g : NormalizedArticle)
    (hpre : pre.length ≤ 1) (hgold : g.is_quality_gold_commodity_news = true) :
    g ∈ (guarantor_go fetch 2 [(4,7)] (pre ++ g :: post)).1.take 2 := by
  by_cases hlen : 2 ≤ (pre ++ g :: post).length
  · rw [guarantor_go, if_pos hlen]
    exact mem_take_two hpre
  · rw [guarantor_go, if_neg hlen]
    have hl : (pre ++ g :: post).length < 2 := Nat.lt_of_not_le hlen
    rw [List.length_append, List.length_cons] at hl
    have hpre0 : pre = [] := List.eq_nil_of_length_eq_zero (by omega)
    have hpost0 : post = [] := List.eq_nil_of_length_eq_zero (by omega)
    subst hpre0
    subst hpost0
    rcases @guarantor_window_gold_present (fetch (4,7)) ([] ++ g :: [])
        ⟨g, by simp, hgold⟩ with hw | ⟨c, hw⟩
    · rw [hw]
      simp [guarantor_go]
    · rw [hw]
      simp [guarantor_go, List.take]

/-- Windows three and four, entered with a gold-free accumulator of at most
one (crypto) article, accept the unique qualifying gold article of window
three and keep it among the first two accepted articles. -/
theorem guarantor_tail_windows (fetch : Nat × Nat → List NormalizedArticle)
    {g : NormalizedArticle} (acc2 : List NormalizedArticle)
    (hgold : g.is_quality_gold_commodity_news = true)
    (hf24 : (fetch (2,4)).find?
      (fun h => h.is_quality_gold_commodity_news && is_quality_headline h) = some g)
    (hng : ∀ a ∈ acc2, a.is_quality_gold_commodity_news = false)
    (hshape : acc2 = [] ∨ ∃ c, acc2 = [c]) :
    g ∈ (guarantor_go fetch 2 [(2,4),(4,7)] acc2).1.take 2 := by
  have hlen2 : ¬ 2 ≤ acc2.length := by
    rcases hshape with rfl | ⟨c, rfl⟩ <;> simp
  have hpre : acc2.length ≤ 1 := by
    rcases hshape with rfl | ⟨c, rfl⟩ <;> simp
  rw [guarantor_go, if_neg hlen2]
  rcases guarantor_window_gold_found hng hf24 with hw | ⟨c2, hw⟩
  · rw [hw]
    exact guarantor_last_window_keeps fetch acc2 [] g hpre hgold
  · rw [hw, List.append_assoc]
    exact guarantor_last_window_keeps fetch acc2 [c2] g hpre hgold

/-- C5 (amended): the guarantor scans the windows `[0,1), [1,2), [2,4),
[4,7)` nearest-first, fills the gold slot then the crypto slot per window
(excluding near-duplicates of accepted articles), leaves unfillable slots
absent without error, and — in the claimed scenario — when the nearest two
windows contain zero qualifying gold articles and the third exactly one,
that article is returned.  The early-stop rule, however, is keyed to the
count of *accepted articles* reaching two, not to "both slots filled": it
stops fetching further windows once two articles have been accepted (second
conjunct), whereas a single article satisfying both category predicates
fills both slots yet does not stop the scan (see the counterexample). -/
theorem claim_C5 :
    (∀ (fetch : Nat × Nat → List NormalizedArticle) (g : NormalizedArticle),
      (∀ a ∈ fetch (0,1), ¬(a.is_quality_gold_commodity_news = true ∧
        is_quality_headline a = true)) →
      (∀ a ∈ fetch (1,2), ¬(a.is_quality_gold_commodity_news = true ∧
        is_quality_headline a = true)) →
      g ∈ fetch (2,4) →
      g.is_quality_gold_commodity_news = true →
      is_quality_headline g = true →
      (∀ a ∈ fetch (2,4), a.is_quality_gold_commodity_news = true →
        is_quality_headline a = true → a = g) →
      g ∈ (get_guaranteed_gold_bitcoin_headlines fetch 2).1) ∧
    (∀ (fetch : Nat × Nat → List NormalizedArticle) (ws : List (Nat × Nat))
        (acc : List NormalizedArticle),
      2 ≤ acc.length → guarantor_go fetch 2 ws acc = (acc, [])) := by
  constructor
  · intro fetch g h0 h1 hgmem hggold hgqual huniq
    have hf24 : (fetch (2,4)).find?
        (fun h => h.is_quality_gold_commodity_news && is_quality_headline h)
          = some g := by
      apply find?_first hgmem (by simp [hggold, hgqual])
      intro a ha hp
      simp only [Bool.and_eq_true] at hp
      exact huniq a ha hp.1 hp.2
    show g ∈ (guarantor_go fetch 2 time_ranges []).1.take 2
    obtain ⟨hng0, hsh0⟩ := @guarantor_window_no_gold _ [] h0 (by simp)
    have e0 : (guarantor_go fetch 2 time_ranges []).1
        = (guarantor_go fetch 2 [(1,2),(2,4),(4,7)]
            (guarantor_window 2 (fetch (0,1)) [])).1 := by
      rw [show time_ranges = [(0,1),(1,2),(2,4),(4,7)] from rfl,
        guarantor_go, if_neg (by simp)]
    rw [e0]
    rcases hsh0 with hA0 | ⟨-, c, hcmem, hA0, hcc, hcq⟩
    · rw [hA0]
      obtain ⟨hng1, hsh1⟩ := @guarantor_window_no_gold _ [] h1 (by simp)
      have e1 : (guarantor_go fetch 2 [(1,2),(2,4),(4,7)] []).1
          = (guarantor_go fetch 2 [(2,4),(4,7)]
              (guarantor_window 2 (fetch (1,2)) [])).1 := by
        rw [guarantor_go, if_neg (by simp)]
      rw [e1]
      rcases hsh1 with hA1 | ⟨-, c1, hc1mem, hA1, hc1c, hc1q⟩
      · rw [hA1]
        exact guarantor_tail_windows fetch [] hggold hf24 (by simp) (Or.inl rfl)
      · rw [hA1]
        refine guarantor_tail_windows fetch ([] ++ [c1]) hggold hf24 ?_ ?_
        · intro a ha
          rw [← hA1] at ha
          exact hng1 a ha
        · exact Or.inr ⟨c1, by simp⟩
    · rw [hA0]
      have hngc : ∀ a ∈ ([] ++ [c] : List NormalizedArticle),
          a.is_quality_gold_commodity_news = false := by
        intro a ha
        rw [← hA0] at ha
        exact hng0 a ha
      obtain ⟨hng1, hsh1⟩ := @guarantor_window_no_gold _ ([] ++ [c]) h1 hngc
      have e1 : (guarantor_go fetch 2 [(1,2),(2,4),(4,7)] ([] ++ [c])).1
          = (guarantor_go fetch 2 [(2,4),(4,7)]
              (guarantor_window 2 (fetch (1,2)) ([] ++ [c]))).1 := by
        rw [guarantor_go, if_neg (by simp)]
      rw [e1]
      rcases hsh1 with hA1 | ⟨hcnt, c1, hc1mem, hA1, hc1c, hc1q⟩
      · rw [hA1]
        exact guarantor_tail_windows fetch ([] ++ [c]) hggold hf24 hngc
          (Or.inr ⟨c, by simp⟩)
      · exfalso
        have hz := List.countP_eq_zero.mp hcnt c (by simp)
        simp [hcc] at hz
  · intro fetch ws acc hlen
    cases ws with
    | nil => rfl
    | cons w ws => rw [guarantor_go, if_pos hlen]

/-- Concrete article satisfying *both* the gold and the crypto predicate
(and the basic quality check). -/
def dualCategoryArticle : NormalizedArticle :=
  { title := "Bitcoin rally mirrors gold price surge as investors seek safety"
    summary := "Both assets climb together in a volatile week"
    source := "reuters"
    time_published := "20251010T120000"
    sentiment := "bullish"
    sentiment_score := mkRat 3 10
    tickers := []
    url := ""
    quality_score := 75 }

/-- A fetch whose nearest window holds exactly the dual-category article
and whose later windows are empty. -/
def dualFetch : Nat × Nat → List NormalizedArticle :=
  fun w => if w = (0, 1) then [dualCategoryArticle] else []

/-- C5 (counterexample): with one article in the nearest window that
passes both the gold and the crypto predicate, both category slots are
filled after the first window (the returned set contains a gold-qualifying
and a crypto-qualifying article), yet the guarantor still fetches all four
windows — refuting "once both slots are filled it fetches no further
windows". -/
theorem claim_C5_counterexample :
    dualCategoryArticle.is_quality_gold_commodity_news = true ∧
    dualCategoryArticle.is_quality_crypto_market_news = true ∧
    is_quality_headline dualCategoryArticle = true ∧
    get_guaranteed_gold_bitcoin_headlines dualFetch 2
      = ([dualCategoryArticle], [(0, 1), (1, 2), (2, 4), (4, 7)]) := by
  refine ⟨by decide, by decide, by decide, by decide⟩

/-- Concrete quality crypto article for the nearest window. -/
def cryptoWindow0Article : NormalizedArticle :=
  { title := "Bitcoin surges past resistance as whale accumulation grows"
    summary := "Exchange balances keep falling while buyers step in"
    source := "coindesk"
    time_published := "20251010T090000"
    sentiment := "bullish"
    sentiment_score := mkRat 6 10
    tickers := []
    url := ""
    quality_score := 75 }

/-- Concrete quality gold article sitting in the third window. -/
def goldWindow2Article : NormalizedArticle :=
  { title := "Gold futures rise toward fresh peak on robust bullion demand"
    summary := "Central bank purchases keep supporting the metal"
    source := "kitco"
    time_published := "20251007T150000"
    sentiment := "bullish"
    sentiment_score := mkRat 2 10
    tickers := []
    url := ""
    quality_score := 75 }

/-- A fetch with no qualifying gold article in the two nearest windows and
exactly one in the third. -/
def fetchC5 : Nat × Nat → List NormalizedArticle :=
  fun w =>
    if w = (0, 1) then [cryptoWindow0Article]
    else if w = (2, 4) then [goldWindow2Article]
    else []

/-- Witness for `claim_C5`: on the concrete fetch, the third-window gold
article is returned; and with two articles already accepted, no further
window is fetched. -/
theorem claim_C5_witness :
    goldWindow2Article ∈ (get_guaranteed_gold_bitcoin_headlines fetchC5 2).1 ∧
    guarantor_go fetchC5 2 [(2, 4), (4, 7)]
      [cryptoWindow0Article, goldWindow2Article]
      = ([cryptoWindow0Article, goldWindow2Article], []) :=
  ⟨claim_C5.1 fetchC5 goldWindow2Article (by decide) (by decide) (by decide)
      (by decide) (by decide) (by decide),
   claim_C5.2 fetchC5 [(2, 4), (4, 7)]
      [cryptoWindow0Article, goldWindow2Article] (by decide)⟩

end MarketNews
